import Mathlib

/-!
Verification of the borewell contour-generation pipeline
(`generate_contour.py` — groundwater elevation variant — and
`generate_nitrate_contour.py` — nitrate concentration variant).

The numeric core is embedded shallowly over `ℚ`: machine floats become exact
rationals, and the "not a number" value produced by the scattered-data
interpolator outside the convex hull of the samples becomes `none` in
`Option ℚ`, with NaN-propagating arithmetic.  External collaborators
(the scipy interpolator, the pyproj coordinate transform) are modelled as
abstract function parameters; everything the scripts themselves compute is
translated definition by definition.
-/

namespace Borewell

/-- One validated field sample: projected coordinates in meters plus the
measured scalar (groundwater elevation or nitrate concentration). -/
structure Sample where
  easting : ℚ
  northing : ℚ
  value : ℚ
deriving DecidableEq

/-- One raw input row before validation.  `name` is the optional "Name"
column cell (as a character list; `none` = missing/NaN cell). -/
structure Row where
  name : Option (List Char)
  easting : Option ℚ
  northing : Option ℚ
  value : Option ℚ
deriving DecidableEq

/-- The geographic bounds record written to `image_bounds.json` /
`nitrate_bounds.json`, with the four fields of the scripts' `bounds_dict`. -/
structure GeoBounds where
  min_lat : ℚ
  min_lon : ℚ
  max_lat : ℚ
  max_lon : ℚ
deriving DecidableEq

/- ## Sample loader: the optional "Name" filter (generate_contour.py:35-36) -/

/-- `startsWithPat s pat` is true when `pat` occurs at the beginning of `s`. -/
def startsWithPat : List Char → List Char → Bool
  | _, [] => true
  | [], _ :: _ => false
  | a :: s, b :: p => a = b && startsWithPat s p

/-- Plain substring containment, the semantics of pandas
`str.contains('TOC1')` for the literal pattern `TOC1`. -/
def containsPat : List Char → List Char → Bool
  | [], pat => pat.isEmpty
  | a :: s, pat => startsWithPat (a :: s) pat || containsPat s pat

/-- The configured tag of the categorical filter. -/
def toc1Tag : List Char := ['T', 'O', 'C', '1']

/-- Whether a row's "Name" cell contains the tag (missing cells never match;
`na=False` in the source). -/
def rowMatchesTOC1 (r : Row) : Bool :=
  match r.name with
  | some s => containsPat s toc1Tag
  | none => false

/-- generate_contour.py:35-36 — if the "Name" column exists and at least one
row's Name contains `TOC1`, restrict the table to the matching rows;
otherwise leave the table unchanged. -/
def nameFilterStage (hasNameCol : Bool) (rows : List Row) : List Row :=
  if hasNameCol && rows.any rowMatchesTOC1 then rows.filter rowMatchesTOC1 else rows

/- ## numpy-style reductions over columns -/

/-- `.min()` of a numpy/pandas 1-D collection (`none` on an empty one). -/
def npMin (l : List ℚ) : Option ℚ := l.min?

/-- `.max()` of a numpy/pandas 1-D collection (`none` on an empty one). -/
def npMax (l : List ℚ) : Option ℚ := l.max?

def sampleEastings (ss : List Sample) : List ℚ := ss.map Sample.easting

def sampleNorthings (ss : List Sample) : List ℚ := ss.map Sample.northing

def sampleValues (ss : List Sample) : List ℚ := ss.map Sample.value

/- ## Grid builder (generate_contour.py:48-56, generate_nitrate_contour.py:43-51) -/

/-- Fixed grid resolution: `100j` in the `np.mgrid` call. -/
def gridRes : ℕ := 100

/-- One axis of `np.mgrid[lo:hi:100j]`: 100 evenly spaced coordinates from
`lo` to `hi` inclusive. -/
def gridAxis (lo hi : ℚ) : List ℚ :=
  (List.range gridRes).map (fun (k : ℕ) => lo + (k : ℚ) * (hi - lo) / ((gridRes : ℚ) - 1))

/-- The corner extremes handed to the reprojector:
`min_easting, max_easting = grid_x.min(), grid_x.max()` and likewise for the
northings, where the grid axes themselves span the sample extremes.
Returns `((min_easting, min_northing), (max_easting, max_northing))`;
`none` when the validated table is empty. -/
def gridCornerBounds (ss : List Sample) : Option ((ℚ × ℚ) × (ℚ × ℚ)) :=
  match npMin (sampleEastings ss), npMax (sampleEastings ss),
      npMin (sampleNorthings ss), npMax (sampleNorthings ss) with
  | some e0, some e1, some n0, some n1 =>
      match npMin (gridAxis e0 e1), npMax (gridAxis e0 e1),
          npMin (gridAxis n0 n1), npMax (gridAxis n0 n1) with
      | some minE, some maxE, some minN, some maxN => some ((minE, minN), (maxE, maxN))
      | _, _, _, _ => none
  | _, _, _, _ => none

/- ## Reprojector and bounds emitter (generate_contour.py:54-67) -/

/-- The list of points handed to `transformer.transform`: exactly the two
diagonal grid corners, in (easting, northing) order. -/
def transformCalls (minE minN maxE maxN : ℚ) : List (ℚ × ℚ) :=
  [(minE, minN), (maxE, maxN)]

/-- The bounds record built from the two reprojected corners.  `T` abstracts
the pyproj transformer (`always_xy=True`: input (easting, northing), output
(longitude, latitude)).  Mirrors
`min_lon, min_lat = transformer.transform(min_easting, min_northing)` and
`max_lon, max_lat = transformer.transform(max_easting, max_northing)`. -/
def emitBounds (T : ℚ → ℚ → ℚ × ℚ) (minE minN maxE maxN : ℚ) : GeoBounds :=
  let p1 := T minE minN
  let p2 := T maxE maxN
  { min_lat := p1.2, min_lon := p1.1, max_lat := p2.2, max_lon := p2.1 }

/-- The serialized `bounds_dict` as an ordered key/value list (Python dicts
preserve insertion order, so this is the JSON field order). -/
def boundsJson (g : GeoBounds) : List (String × ℚ) :=
  [("min_lat", g.min_lat), ("min_lon", g.min_lon), ("max_lat", g.max_lat), ("max_lon", g.max_lon)]

/- ## Contour level selection (generate_contour.py:82-90, generate_nitrate_contour.py:73-81) -/

/-- generate_contour.py:84 — the elevation variant's interval lookup table. -/
def selectInterval (r : ℚ) : ℚ :=
  if r > 10 then 1
  else if r > 5 then 1/2
  else if r > 2 then 1/5
  else if r > 1 then 1/10
  else if r > 1/2 then 1/20
  else 1/100

/-- generate_nitrate_contour.py:75 — the nitrate variant's shorter table. -/
def selectIntervalNitrate (r : ℚ) : ℚ :=
  if r > 10 then 1
  else if r > 5 then 1/2
  else if r > 2 then 1/5
  else 1/10

/-- `np.arange(start, stop, step)` for positive `step`, in exact arithmetic:
`ceil((stop - start) / step)` elements `start, start + step, ...`, the
`stop` value itself excluded. -/
def arange (start stop step : ℚ) : List ℚ :=
  (List.range (⌈(stop - start) / step⌉).toNat).map (fun (k : ℕ) => start + (k : ℚ) * step)

/-- The level sequence both scripts build:
`np.arange(floor(vmin/interval)*interval, ceil(vmax/interval)*interval + interval, interval)`. -/
def levelsFor (vmin vmax interval : ℚ) : List ℚ :=
  arange ((⌊vmin / interval⌋ : ℚ) * interval) ((⌈vmax / interval⌉ : ℚ) * interval + interval)
    interval

/-- generate_contour.py:82-90 — elevation contour levels from the raw sample
value range. -/
def contourLevels (vmin vmax : ℚ) : List ℚ :=
  levelsFor vmin vmax (selectInterval (vmax - vmin))

/-- generate_nitrate_contour.py:77-81 — nitrate contour levels. -/
def nitrateLevels (vmin vmax : ℚ) : List ℚ :=
  levelsFor vmin vmax (selectIntervalNitrate (vmax - vmin))

/- ## Range sources for the two variants (C4) -/

/-- The finite (non-NaN) values of an interpolated grid, row-major. -/
def finiteValues (g : List (List (Option ℚ))) : List ℚ :=
  (g.map (fun row => row.filterMap id)).flatten

/-- generate_contour.py:82 — the elevation variant's contour range comes from
the raw validated sample values; the interpolator's output is not consulted. -/
def elevationRange (_interp : List Sample → List (List (Option ℚ)))
    (ss : List Sample) : Option ℚ × Option ℚ :=
  (npMin (sampleValues ss), npMax (sampleValues ss))

/-- generate_nitrate_contour.py:73 — the nitrate variant's contour range is
`np.nanmin(grid_nitrate), np.nanmax(grid_nitrate)`: the extremes of the
interpolated grid's finite values. -/
def nitrateRange (interp : List Sample → List (List (Option ℚ)))
    (ss : List Sample) : Option ℚ × Option ℚ :=
  (npMin (finiteValues (interp ss)), npMax (finiteValues (interp ss)))

/-- A concrete external interpolator exhibiting the divergence between the
two range sources: its grid holds finite values outside the raw sample
range plus one undefined cell. -/
def interpDivergent : List Sample → List (List (Option ℚ)) :=
  fun _ => [[some (1/2), none, some (5/2)]]

/- ## Gradient / flow estimator (generate_contour.py:77-80) -/

/-- NaN-propagating subtraction. -/
def osub : Option ℚ → Option ℚ → Option ℚ
  | some a, some b => some (a - b)
  | _, _ => none

/-- NaN-propagating halving (the `/2` of a central difference). -/
def ohalf : Option ℚ → Option ℚ
  | some a => some (a / 2)
  | none => none

/-- The interpolated grid value at cell `(i, j)` (row-major; out-of-range
indices read as undefined). -/
def cellG (g : List (List (Option ℚ))) (i j : ℕ) : Option ℚ :=
  (g.getD i []).getD j none

/-- Length of a grid row. -/
def rowLen (g : List (List (Option ℚ))) : ℕ := (g.getD 0 []).length

/-- `np.gradient(grid_z)[0]` at cell `(i, j)`: one-sided differences at the
axis-0 edges, central differences in the interior. -/
def dAxis0 (g : List (List (Option ℚ))) (i j : ℕ) : Option ℚ :=
  if g.length < 2 then none
  else if i = 0 then osub (cellG g 1 j) (cellG g 0 j)
  else if i = g.length - 1 then osub (cellG g i j) (cellG g (i - 1) j)
  else ohalf (osub (cellG g (i + 1) j) (cellG g (i - 1) j))

/-- `np.gradient(grid_z)[1]` at cell `(i, j)`. -/
def dAxis1 (g : List (List (Option ℚ))) (i j : ℕ) : Option ℚ :=
  if rowLen g < 2 then none
  else if j = 0 then osub (cellG g i 1) (cellG g i 0)
  else if j = rowLen g - 1 then osub (cellG g i j) (cellG g i (j - 1))
  else ohalf (osub (cellG g i (j + 1)) (cellG g i (j - 1)))

/-- The `1e-10` stabilizer added to the magnitude before dividing. -/
def gradEps : ℚ := 1 / 10 ^ 10

/-- One component of the normalized flow vector:
`u = -dz_dx / (magnitude + 1e-10)` (and likewise `v`), where `m` stands for
`sqrt(dz_dx**2 + dz_dy**2)` at the cell. -/
def normComp (d m : ℚ) : ℚ := -d / (m + gradEps)

/-- Whether the flow vector `(u, v)` at a cell is NaN-free: `magnitude` (and
hence each quotient) is NaN exactly when one of the two finite-difference
derivatives is. -/
def gradVecDefined (g : List (List (Option ℚ))) (i j : ℕ) : Bool :=
  (dAxis0 g i j).isSome && (dAxis1 g i j).isSome

/-- A 3x3 interpolated grid with a single undefined cell at its center, as
the cubic interpolator produces outside the samples' convex hull. -/
def gridCE : List (List (Option ℚ)) :=
  [[some 1, some 2, some 3], [some 4, none, some 6], [some 7, some 8, some 9]]

/-- A row whose Name cell contains the `TOC1` tag. -/
def rowT : Row := ⟨some ['M', 'W', 'T', 'O', 'C', '1'], none, none, none⟩

/-- A row whose Name cell does not contain the tag. -/
def rowU : Row := ⟨some ['B', 'H'], none, none, none⟩

/- ## Interpolation stage (generate_contour.py:70-75) -/

/-- The interpolation stage as written: the validated samples are handed
straight to the external `scipy.interpolate.griddata(..., method='cubic')`
with no sample-count or colinearity guard anywhere in the script, and the
repository defines no error type of its own. -/
def interpolationStage (griddata : List Sample → List (List (Option ℚ)))
    (ss : List Sample) : List (List (Option ℚ)) :=
  griddata ss

/- ## Helper lemmas -/

theorem npMin_eq_some_iff {a : ℚ} {xs : List ℚ} :
    npMin xs = some a ↔ a ∈ xs ∧ ∀ b ∈ xs, a ≤ b := by
  haveI : Std.Antisymm (α := ℚ) (· ≤ ·) := ⟨by intro x y h h'; exact le_antisymm h h'⟩
  exact List.min?_eq_some_iff (fun _ => le_refl _) (fun x y => min_choice x y)
    (fun _ _ _ => le_min_iff)

theorem npMax_eq_some_iff {a : ℚ} {xs : List ℚ} :
    npMax xs = some a ↔ a ∈ xs ∧ ∀ b ∈ xs, b ≤ a := by
  haveI : Std.Antisymm (α := ℚ) (· ≤ ·) := ⟨by intro x y h h'; exact le_antisymm h h'⟩
  exact List.max?_eq_some_iff (fun _ => le_refl _) (fun x y => max_choice x y)
    (fun _ _ _ => max_le_iff)

theorem npMin_le_npMax {xs : List ℚ} {a b : ℚ}
    (ha : npMin xs = some a) (hb : npMax xs = some b) : a ≤ b := by
  obtain ⟨hmem, _⟩ := npMin_eq_some_iff.mp ha
  obtain ⟨_, hub⟩ := npMax_eq_some_iff.mp hb
  exact hub a hmem

theorem gridAxis_elem_bounds (lo hi : ℚ) (h : lo ≤ hi) {x : ℚ}
    (hx : x ∈ gridAxis lo hi) : lo ≤ x ∧ x ≤ hi := by
  simp only [gridAxis, gridRes, List.mem_map, List.mem_range] at hx
  obtain ⟨k, hk, rfl⟩ := hx
  have hk99 : (k : ℚ) ≤ 99 := by exact_mod_cast Nat.lt_succ_iff.mp hk
  have hsub : (0 : ℚ) ≤ hi - lo := sub_nonneg.mpr h
  constructor
  · have : (0 : ℚ) ≤ (k : ℚ) * (hi - lo) / ((100 : ℚ) - 1) :=
      div_nonneg (mul_nonneg (Nat.cast_nonneg k) hsub) (by norm_num)
    linarith
  · have h1 : (k : ℚ) * (hi - lo) ≤ 99 * (hi - lo) :=
      mul_le_mul_of_nonneg_right hk99 hsub
    have h2 : (k : ℚ) * (hi - lo) / ((100 : ℚ) - 1) ≤ 99 * (hi - lo) / 99 := by
      rw [show ((100 : ℚ) - 1) = 99 by norm_num]
      exact div_le_div_of_nonneg_right h1 (by norm_num) |>.trans_eq rfl
    rw [mul_div_cancel_left₀ _ (by norm_num : (99 : ℚ) ≠ 0)] at h2
    linarith

theorem gridAxis_mem_lo (lo hi : ℚ) : lo ∈ gridAxis lo hi := by
  simp only [gridAxis, gridRes, List.mem_map, List.mem_range]
  exact ⟨0, by norm_num, by norm_num⟩

theorem gridAxis_mem_hi (lo hi : ℚ) : hi ∈ gridAxis lo hi := by
  simp only [gridAxis, gridRes, List.mem_map, List.mem_range]
  refine ⟨99, by norm_num, ?_⟩
  push_cast
  field_simp
  ring

theorem gridAxis_min (lo hi : ℚ) (h : lo ≤ hi) : npMin (gridAxis lo hi) = some lo :=
  npMin_eq_some_iff.mpr
    ⟨gridAxis_mem_lo lo hi, fun _ hb => (gridAxis_elem_bounds lo hi h hb).1⟩

theorem gridAxis_max (lo hi : ℚ) (h : lo ≤ hi) : npMax (gridAxis lo hi) = some hi :=
  npMax_eq_some_iff.mpr
    ⟨gridAxis_mem_hi lo hi, fun _ hb => (gridAxis_elem_bounds lo hi h hb).2⟩

theorem mapRange_getLast (n : ℕ) (hn : 0 < n) (f : ℕ → ℚ) :
    ((List.range n).map f).getLast? = some (f (n - 1)) := by
  obtain ⟨m, rfl⟩ := Nat.exists_eq_add_of_lt hn
  rw [Nat.zero_add, List.range_succ, List.map_append]
  simp

theorem gridAxis_head (lo hi : ℚ) : (gridAxis lo hi).head? = some lo := by
  unfold gridAxis gridRes
  rw [List.range_succ_eq_map 99]
  norm_num

theorem gridAxis_last (lo hi : ℚ) : (gridAxis lo hi).getLast? = some hi := by
  unfold gridAxis gridRes
  rw [mapRange_getLast 100 (by norm_num)]
  congr 1
  push_cast
  field_simp
  ring

theorem selectInterval_pos (r : ℚ) : 0 < selectInterval r := by
  unfold selectInterval
  split_ifs <;> norm_num

theorem selectIntervalNitrate_pos (r : ℚ) : 0 < selectIntervalNitrate r := by
  unfold selectIntervalNitrate
  split_ifs <;> norm_num

theorem levelsFor_spec (vmin vmax i : ℚ) (hi : 0 < i) (hle : vmin ≤ vmax) :
    levelsFor vmin vmax i ≠ [] ∧
    (levelsFor vmin vmax i).head? = some ((⌊vmin / i⌋ : ℚ) * i) ∧
    (levelsFor vmin vmax i).getLast? = some ((⌈vmax / i⌉ : ℚ) * i) ∧
    (⌊vmin / i⌋ : ℚ) * i ≤ vmin ∧ vmax ≤ (⌈vmax / i⌉ : ℚ) * i ∧
    (levelsFor vmin vmax i).Pairwise (· < ·) ∧
    (levelsFor vmin vmax i).Chain' (fun x y => y = x + i) := by
  have hine : i ≠ 0 := ne_of_gt hi
  have hab : ⌊vmin / i⌋ ≤ ⌈vmax / i⌉ := by
    have h1 : ((⌊vmin / i⌋ : ℤ) : ℚ) ≤ vmin / i := Int.floor_le _
    have h3 : vmin / i ≤ vmax / i := div_le_div_of_nonneg_right hle hi.le
    have h2 : vmax / i ≤ ((⌈vmax / i⌉ : ℤ) : ℚ) := Int.le_ceil _
    exact_mod_cast h1.trans (h3.trans h2)
  have hcount : ⌈(((⌈vmax / i⌉ : ℚ) * i + i) - (⌊vmin / i⌋ : ℚ) * i) / i⌉
      = ⌈vmax / i⌉ + 1 - ⌊vmin / i⌋ := by
    have hq : (((⌈vmax / i⌉ : ℚ) * i + i) - (⌊vmin / i⌋ : ℚ) * i) / i
        = ((⌈vmax / i⌉ + 1 - ⌊vmin / i⌋ : ℤ) : ℚ) := by
      push_cast
      field_simp
      ring
    rw [hq, Int.ceil_intCast]
  have hd : ((⌈vmax / i⌉ + 1 - ⌊vmin / i⌋).toNat : ℤ) = ⌈vmax / i⌉ + 1 - ⌊vmin / i⌋ :=
    Int.toNat_of_nonneg (by omega)
  have hn : (⌈vmax / i⌉ + 1 - ⌊vmin / i⌋).toNat = (⌈vmax / i⌉ - ⌊vmin / i⌋).toNat + 1 := by
    omega
  have hdq : (((⌈vmax / i⌉ - ⌊vmin / i⌋).toNat : ℕ) : ℚ)
      = (⌈vmax / i⌉ : ℚ) - (⌊vmin / i⌋ : ℚ) := by
    have : ((⌈vmax / i⌉ - ⌊vmin / i⌋).toNat : ℤ) = ⌈vmax / i⌉ - ⌊vmin / i⌋ :=
      Int.toNat_of_nonneg (by omega)
    exact_mod_cast this
  unfold levelsFor arange
  rw [hcount, hn]
  refine ⟨by simp, ?_, ?_, ?_, ?_, ?_, ?_⟩
  · rw [List.range_succ_eq_map]
    norm_num
  · rw [mapRange_getLast _ (Nat.succ_pos _), Nat.succ_sub_one, hdq]
    congr 1
    ring
  · exact (le_div_iff₀ hi).mp (Int.floor_le (vmin / i))
  · exact (div_le_iff₀ hi).mp (Int.le_ceil (vmax / i))
  · refine List.Pairwise.map _ ?_ (List.pairwise_lt_range _)
    intro x y hxy
    have : (x : ℚ) < (y : ℚ) := by exact_mod_cast hxy
    have := mul_lt_mul_of_pos_right this hi
    linarith
  · rw [List.chain'_map]
    rw [List.chain'_range_succ]
    intro m _
    push_cast
    ring

theorem contourLevels_zero_ten : contourLevels 0 10 = arange 0 (21/2) (1/2) := by
  have hsel : selectInterval ((10 : ℚ) - 0) = 1/2 := by norm_num [selectInterval]
  have hfl : ⌊(0 : ℚ) / (1/2)⌋ = 0 := by norm_num
  have hcl : ⌈(10 : ℚ) / (1/2)⌉ = 20 := by
    rw [Int.ceil_eq_iff] <;> norm_num
  unfold contourLevels levelsFor
  rw [hsel, hfl, hcl]
  norm_num

theorem contourLevels_five : contourLevels 5 5 = [5] := by
  have hsel : selectInterval ((5 : ℚ) - 5) = 1/100 := by norm_num [selectInterval]
  have hfl : ⌊(5 : ℚ) / (1/100)⌋ = 500 := by
    rw [Int.floor_eq_iff] <;> norm_num
  have hcl : ⌈(5 : ℚ) / (1/100)⌉ = 500 := by
    rw [Int.ceil_eq_iff] <;> norm_num
  have hstop : ((500 : ℤ) : ℚ) * (1/100) + 1/100 = 501/100 := by norm_num
  have hc : ⌈(((501 : ℚ)/100 - ((500 : ℤ) : ℚ) * (1/100)) / (1/100))⌉ = 1 := by
    rw [Int.ceil_eq_iff] <;> norm_num
  unfold contourLevels levelsFor
  rw [hsel, hfl, hcl]
  unfold arange
  rw [hstop, hc, show Int.toNat 1 = 1 from rfl, show List.range 1 = [0] from rfl]
  norm_num

/- ## C1: interval selection tables -/

/-- C1: interval selection is a pure function of the range width r alone and
matches the spec's lookup tables exactly, boundary values included: for
r ≥ 0 the elevation variant returns 1.0 for r > 10, 0.5 for 5 < r ≤ 10,
0.2 for 2 < r ≤ 5, 0.1 for 1 < r ≤ 2, 0.05 for 1/2 < r ≤ 1 and 0.01 for
r ≤ 1/2; the nitrate variant returns the same on the first three tiers and
0.1 for all r ≤ 2. -/
theorem selectInterval_matches_table (r : ℚ) (hr : 0 ≤ r) :
    (10 < r → selectInterval r = 1) ∧
    (5 < r ∧ r ≤ 10 → selectInterval r = 1/2) ∧
    (2 < r ∧ r ≤ 5 → selectInterval r = 1/5) ∧
    (1 < r ∧ r ≤ 2 → selectInterval r = 1/10) ∧
    (1/2 < r ∧ r ≤ 1 → selectInterval r = 1/20) ∧
    (r ≤ 1/2 → selectInterval r = 1/100) ∧
    (10 < r → selectIntervalNitrate r = 1) ∧
    (5 < r ∧ r ≤ 10 → selectIntervalNitrate r = 1/2) ∧
    (2 < r ∧ r ≤ 5 → selectIntervalNitrate r = 1/5) ∧
    (r ≤ 2 → selectIntervalNitrate r = 1/10) := by
  unfold selectInterval selectIntervalNitrate
  refine ⟨?_, ?_, ?_, ?_, ?_, ?_, ?_, ?_, ?_, ?_⟩ <;>
    · intro h
      split_ifs <;>
        first
          | rfl
          | (exfalso; obtain ⟨h1, h2⟩ := h; linarith)
          | (exfalso; linarith)

/-- C1 witness: the theorem applied at the boundary width r = 10, where both
variants land on the second tier. -/
theorem selectInterval_matches_table_witness :
    ((0 : ℚ) ≤ 10 ∧ (5 : ℚ) < 10 ∧ (10 : ℚ) ≤ 10) ∧
    selectInterval 10 = 1/2 ∧ selectIntervalNitrate 10 = 1/2 :=
  ⟨⟨by norm_num, by norm_num, le_refl 10⟩,
   (selectInterval_matches_table 10 (by norm_num)).2.1 ⟨by norm_num, le_refl 10⟩,
   (selectInterval_matches_table 10 (by norm_num)).2.2.2.2.2.2.2.1 ⟨by norm_num, le_refl 10⟩⟩

/- ## C2: level sequence construction -/

/-- C2 counterexample: at v_min = 0, v_max = 10 the elevation variant picks
interval 1/2, and `np.arange` excludes its stop value, so the claimed
inclusive end value ceil(v_max/interval)*interval + interval = 21/2 is not
in the emitted sequence; the last level is 10 = v_max and the first is
0 = v_min, which also refutes "at least one band beyond each extreme". -/
theorem contourLevels_endValue_ce :
    (21/2 : ℚ) ∉ contourLevels 0 10 ∧
    (contourLevels 0 10).getLast? = some 10 ∧
    (contourLevels 0 10).head? = some 0 := by
  have hc : ⌈(((21 : ℚ)/2 - 0) / (1/2))⌉ = 21 := by
    rw [Int.ceil_eq_iff] <;> norm_num
  refine ⟨?_, ?_, ?_⟩
  · rw [contourLevels_zero_ten]
    unfold arange
    rw [hc, show Int.toNat 21 = 21 from rfl]
    intro hm
    simp only [List.mem_map, List.mem_range] at hm
    obtain ⟨k, hk, he⟩ := hm
    have hk21 : (k : ℚ) = 21 := by linarith
    have hk' : k = 21 := by exact_mod_cast hk21
    omega
  · rw [contourLevels_zero_ten]
    unfold arange
    rw [hc, show Int.toNat 21 = 21 from rfl, mapRange_getLast 21 (by norm_num)]
    norm_num
  · rw [contourLevels_zero_ten]
    unfold arange
    rw [hc, show Int.toNat 21 = 21 from rfl, List.range_succ_eq_map]
    norm_num

/-- C2 (amended): for every v_min ≤ v_max both variants select a positive
interval i from their lookup tables and emit
`np.arange(floor(v_min/i)*i, ceil(v_max/i)*i + i, i)`; because arange
excludes its stop, the sequence runs from floor(v_min/i)*i up to
ceil(v_max/i)*i inclusive (not to the stop value), stepping by exactly i;
it is non-empty, strictly ascending, its first level is ≤ v_min and its
last level is ≥ v_max. -/
theorem contourLevels_amended (vmin vmax : ℚ) (hle : vmin ≤ vmax) :
    (contourLevels vmin vmax ≠ [] ∧
     (contourLevels vmin vmax).head? =
       some ((⌊vmin / selectInterval (vmax - vmin)⌋ : ℚ) * selectInterval (vmax - vmin)) ∧
     (contourLevels vmin vmax).getLast? =
       some ((⌈vmax / selectInterval (vmax - vmin)⌉ : ℚ) * selectInterval (vmax - vmin)) ∧
     (⌊vmin / selectInterval (vmax - vmin)⌋ : ℚ) * selectInterval (vmax - vmin) ≤ vmin ∧
     vmax ≤ (⌈vmax / selectInterval (vmax - vmin)⌉ : ℚ) * selectInterval (vmax - vmin) ∧
     (contourLevels vmin vmax).Pairwise (· < ·) ∧
     (contourLevels vmin vmax).Chain' (fun x y => y = x + selectInterval (vmax - vmin))) ∧
    (nitrateLevels vmin vmax ≠ [] ∧
     (nitrateLevels vmin vmax).head? =
       some ((⌊vmin / selectIntervalNitrate (vmax - vmin)⌋ : ℚ)
         * selectIntervalNitrate (vmax - vmin)) ∧
     (nitrateLevels vmin vmax).getLast? =
       some ((⌈vmax / selectIntervalNitrate (vmax - vmin)⌉ : ℚ)
         * selectIntervalNitrate (vmax - vmin)) ∧
     (⌊vmin / selectIntervalNitrate (vmax - vmin)⌋ : ℚ)
       * selectIntervalNitrate (vmax - vmin) ≤ vmin ∧
     vmax ≤ (⌈vmax / selectIntervalNitrate (vmax - vmin)⌉ : ℚ)
       * selectIntervalNitrate (vmax - vmin) ∧
     (nitrateLevels vmin vmax).Pairwise (· < ·) ∧
     (nitrateLevels vmin vmax).Chain' (fun x y => y = x + selectIntervalNitrate (vmax - vmin))) := by
  constructor
  · exact levelsFor_spec vmin vmax (selectInterval (vmax - vmin)) (selectInterval_pos _) hle
  · exact levelsFor_spec vmin vmax (selectIntervalNitrate (vmax - vmin))
      (selectIntervalNitrate_pos _) hle

/-- C2 witness: the amended theorem applied at v_min = 0, v_max = 10. -/
theorem contourLevels_amended_witness :
    (0 : ℚ) ≤ 10 ∧ contourLevels 0 10 ≠ [] ∧ (contourLevels 0 10).Pairwise (· < ·) ∧
    nitrateLevels 0 10 ≠ [] :=
  ⟨by norm_num, (contourLevels_amended 0 10 (by norm_num)).1.1,
   (contourLevels_amended 0 10 (by norm_num)).1.2.2.2.2.2.1,
   (contourLevels_amended 0 10 (by norm_num)).2.1⟩

/- ## C3: degenerate zero-range input -/

/-- C3 counterexample: with all sample values equal to 5.0 the elevation
variant does select the smallest tier 0.01, but
`np.arange(5.0, 5.01, 0.01)` has exactly one element, so the emitted levels
are [5.0] — not the claimed minimum [5.0, 5.01]; 5.01 is not a level. -/
theorem contourLevels_degenerate_ce :
    (contourLevels 5 5).length = 1 ∧ (501/100 : ℚ) ∉ contourLevels 5 5 := by
  rw [contourLevels_five]
  constructor
  · rfl
  · norm_num

/-- C3 (amended): a value range of exactly zero selects the smallest tier of
each variant's table (0.01 for elevation, 0.1 for nitrate) and the emitted
level sequence is non-empty in both variants; for all values equal to 5.0
the elevation variant emits exactly the single level [5.0]. -/
theorem degenerate_range_amended :
    (∀ v : ℚ,
      selectInterval (v - v) = 1/100 ∧ selectIntervalNitrate (v - v) = 1/10 ∧
      contourLevels v v ≠ [] ∧ nitrateLevels v v ≠ []) ∧
    contourLevels 5 5 = [5] := by
  refine ⟨fun v => ?_, contourLevels_five⟩
  have hz : v - v = (0 : ℚ) := sub_self v
  refine ⟨by rw [hz]; norm_num [selectInterval], by rw [hz]; norm_num [selectIntervalNitrate],
    ?_, ?_⟩
  · exact (levelsFor_spec v v _ (selectInterval_pos _) le_rfl).1
  · exact (levelsFor_spec v v _ (selectIntervalNitrate_pos _) le_rfl).1

/- ## C4: range-source asymmetry between the two variants -/

/-- C4: the two variants source the contour range differently and the
asymmetry is real: the elevation variant's (v_min, v_max) ignores the
interpolator entirely and equals the extremes of the raw validated sample
values, while the nitrate variant's equals the extremes of the interpolated
grid's finite (non-NaN) values; a concrete interpolator whose grid holds
finite values outside the raw sample range makes the two disagree. -/
theorem rangeSource_asymmetry :
    (∀ (i1 i2 : List Sample → List (List (Option ℚ))) (ss : List Sample),
       elevationRange i1 ss = elevationRange i2 ss) ∧
    (∀ (interp : List Sample → List (List (Option ℚ))) (ss : List Sample),
       elevationRange interp ss = (npMin (sampleValues ss), npMax (sampleValues ss)) ∧
       nitrateRange interp ss =
         (npMin (finiteValues (interp ss)), npMax (finiteValues (interp ss)))) ∧
    elevationRange interpDivergent [⟨0, 0, 1⟩] = (some 1, some 1) ∧
    nitrateRange interpDivergent [⟨0, 0, 1⟩] = (some (1/2), some (5/2)) ∧
    elevationRange interpDivergent [⟨0, 0, 1⟩] ≠ nitrateRange interpDivergent [⟨0, 0, 1⟩] := by
  have hval : sampleValues [(⟨0, 0, 1⟩ : Sample)] = [1] := rfl
  have hfin : finiteValues (interpDivergent [(⟨0, 0, 1⟩ : Sample)]) = [1/2, 5/2] := by
    simp [finiteValues, interpDivergent]
  have hm1 : npMin [(1 : ℚ)] = some 1 :=
    npMin_eq_some_iff.mpr ⟨by norm_num, by intro b hb; simp at hb; rw [hb]⟩
  have hm2 : npMax [(1 : ℚ)] = some 1 :=
    npMax_eq_some_iff.mpr ⟨by norm_num, by intro b hb; simp at hb; rw [hb]⟩
  have hm3 : npMin [(1 : ℚ)/2, 5/2] = some (1/2) :=
    npMin_eq_some_iff.mpr ⟨by norm_num, by
      intro b hb; simp at hb; rcases hb with rfl | rfl <;> norm_num⟩
  have hm4 : npMax [(1 : ℚ)/2, 5/2] = some (5/2) :=
    npMax_eq_some_iff.mpr ⟨by norm_num, by
      intro b hb; simp at hb; rcases hb with rfl | rfl <;> norm_num⟩
  have hev : elevationRange interpDivergent [(⟨0, 0, 1⟩ : Sample)] = (some 1, some 1) := by
    unfold elevationRange
    rw [hval, hm1, hm2]
  have hni : nitrateRange interpDivergent [(⟨0, 0, 1⟩ : Sample)] = (some (1/2), some (5/2)) := by
    unfold nitrateRange
    rw [hfin, hm3, hm4]
  refine ⟨fun _ _ _ => rfl, fun _ _ => ⟨rfl, rfl⟩, hev, hni, ?_⟩
  rw [hev, hni]
  intro hcontra
  have : (some (1 : ℚ), some (1 : ℚ)).1 = (some ((1 : ℚ)/2), some ((5 : ℚ)/2)).1 := by
    rw [hcontra]
  simp only [Option.some.injEq] at this
  norm_num at this

/- ## C5: grid corners equal sample extremes -/

/-- C5: for every validated SampleSet whose coordinate extremes exist (any
nonempty one, hence in particular any with at least 4 non-colinear points),
each 100-point grid axis spans from the sample minimum to the sample
maximum inclusive, and the extremes consumed by the reprojection step equal
exactly (easting_min, northing_min) and (easting_max, northing_max) of the
input samples. -/
theorem gridCorners_match_extremes (ss : List Sample) (e0 e1 n0 n1 : ℚ)
    (he0 : npMin (sampleEastings ss) = some e0) (he1 : npMax (sampleEastings ss) = some e1)
    (hn0 : npMin (sampleNorthings ss) = some n0) (hn1 : npMax (sampleNorthings ss) = some n1) :
    gridCornerBounds ss = some ((e0, n0), (e1, n1)) ∧
    (gridAxis e0 e1).head? = some e0 ∧ (gridAxis e0 e1).getLast? = some e1 ∧
    (gridAxis n0 n1).head? = some n0 ∧ (gridAxis n0 n1).getLast? = some n1 := by
  have hee : e0 ≤ e1 := npMin_le_npMax he0 he1
  have hnn : n0 ≤ n1 := npMin_le_npMax hn0 hn1
  refine ⟨?_, gridAxis_head _ _, gridAxis_last _ _, gridAxis_head _ _, gridAxis_last _ _⟩
  unfold gridCornerBounds
  rw [he0, he1, hn0, hn1]
  dsimp only
  rw [gridAxis_min _ _ hee, gridAxis_max _ _ hee, gridAxis_min _ _ hnn, gridAxis_max _ _ hnn]

/-- C5 witness: the theorem applied to a concrete two-sample set with
extremes (0,0) and (2,3). -/
theorem gridCorners_match_extremes_witness :
    npMin (sampleEastings [⟨0, 0, 1⟩, ⟨2, 3, 4⟩]) = some 0 ∧
    gridCornerBounds [⟨0, 0, 1⟩, ⟨2, 3, 4⟩] = some ((0, 0), (2, 3)) := by
  have hse : sampleEastings [(⟨0, 0, 1⟩ : Sample), ⟨2, 3, 4⟩] = [0, 2] := rfl
  have hsn : sampleNorthings [(⟨0, 0, 1⟩ : Sample), ⟨2, 3, 4⟩] = [0, 3] := rfl
  have he0 : npMin (sampleEastings [(⟨0, 0, 1⟩ : Sample), ⟨2, 3, 4⟩]) = some 0 := by
    rw [hse]
    exact npMin_eq_some_iff.mpr ⟨by norm_num, by
      intro b hb; simp at hb; rcases hb with rfl | rfl <;> norm_num⟩
  have he1 : npMax (sampleEastings [(⟨0, 0, 1⟩ : Sample), ⟨2, 3, 4⟩]) = some 2 := by
    rw [hse]
    exact npMax_eq_some_iff.mpr ⟨by norm_num, by
      intro b hb; simp at hb; rcases hb with rfl | rfl <;> norm_num⟩
  have hn0 : npMin (sampleNorthings [(⟨0, 0, 1⟩ : Sample), ⟨2, 3, 4⟩]) = some 0 := by
    rw [hsn]
    exact npMin_eq_some_iff.mpr ⟨by norm_num, by
      intro b hb; simp at hb; rcases hb with rfl | rfl <;> norm_num⟩
  have hn1 : npMax (sampleNorthings [(⟨0, 0, 1⟩ : Sample), ⟨2, 3, 4⟩]) = some 3 := by
    rw [hsn]
    exact npMax_eq_some_iff.mpr ⟨by norm_num, by
      intro b hb; simp at hb; rcases hb with rfl | rfl <;> norm_num⟩
  exact ⟨he0, (gridCorners_match_extremes _ 0 2 0 3 he0 he1 hn0 hn1).1⟩

/- ## C6: the reprojection / bounds-emission contract -/

/-- C6: exactly two points are handed to the abstract transform — the grid
minimum corner and the grid maximum corner, in (easting, northing) input
order — the transform's output is destructured longitude-first, and the
emitted GeoBounds record carries precisely the four fields in the fixed
serialization order min_lat, min_lon, max_lat, max_lon. -/
theorem reprojection_contract (T : ℚ → ℚ → ℚ × ℚ) (minE minN maxE maxN : ℚ) :
    (transformCalls minE minN maxE maxN).length = 2 ∧
    transformCalls minE minN maxE maxN = [(minE, minN), (maxE, maxN)] ∧
    (emitBounds T minE minN maxE maxN).min_lon = (T minE minN).1 ∧
    (emitBounds T minE minN maxE maxN).min_lat = (T minE minN).2 ∧
    (emitBounds T minE minN maxE maxN).max_lon = (T maxE maxN).1 ∧
    (emitBounds T minE minN maxE maxN).max_lat = (T maxE maxN).2 ∧
    (boundsJson (emitBounds T minE minN maxE maxN)).map Prod.fst =
      ["min_lat", "min_lon", "max_lat", "max_lon"] :=
  ⟨rfl, rfl, rfl, rfl, rfl, rfl, rfl⟩

/- ## C7: gradient field normalization and NaN structure -/

/-- C7 counterexample: `np.gradient` stencils read neighboring cells, so the
definedness of a cell's gradient does not follow the cell's own value: in
`gridCE` the undefined center cell (1,1) has both finite-difference
derivatives defined (central differences skip the cell itself), while the
finite cell (0,1) gets an undefined axis-0 derivative from its NaN
neighbor, hence an undefined vector and no finite magnitude bound — both
universally quantified parts of the claim fail. -/
theorem gradient_nan_ce :
    cellG gridCE 1 1 = none ∧ gradVecDefined gridCE 1 1 = true ∧
    (cellG gridCE 0 1).isSome = true ∧ gradVecDefined gridCE 0 1 = false := by
  decide

/-- C7 (amended): the flow field is built exactly as
(-dz_dx, -dz_dy) / (magnitude + 1e-10); wherever the two finite-difference
derivatives are defined the denominator is strictly positive (flat cells
with magnitude 0 included) and the squared vector magnitude is at most 1;
the vector at a cell is defined precisely when both derivatives there are,
which tracks the stencil's neighbors rather than the cell's own value. -/
theorem gradient_normalization (dx dy m : ℚ) (hm : 0 ≤ m)
    (hmag : dx ^ 2 + dy ^ 2 ≤ m ^ 2) :
    0 < m + gradEps ∧
    (normComp dx m) ^ 2 + (normComp dy m) ^ 2 ≤ 1 ∧
    (∀ (g : List (List (Option ℚ))) (i j : ℕ),
       gradVecDefined g i j = ((dAxis0 g i j).isSome && (dAxis1 g i j).isSome)) := by
  have heps : (0 : ℚ) < gradEps := by norm_num [gradEps]
  have hpos : 0 < m + gradEps := by linarith
  refine ⟨hpos, ?_, fun _ _ _ => rfl⟩
  have hne : m + gradEps ≠ 0 := ne_of_gt hpos
  have hp2 : 0 < (m + gradEps) ^ 2 := pow_pos hpos 2
  have hsum : (normComp dx m) ^ 2 + (normComp dy m) ^ 2
      = (dx ^ 2 + dy ^ 2) / (m + gradEps) ^ 2 := by
    unfold normComp
    field_simp
  rw [hsum, div_le_one hp2]
  have hsq : m ^ 2 ≤ (m + gradEps) ^ 2 := by nlinarith
  linarith

/-- C7 witness: the amended theorem applied at derivatives (3, 4) with
magnitude 5. -/
theorem gradient_normalization_witness :
    ((0 : ℚ) ≤ 5 ∧ (3 : ℚ) ^ 2 + 4 ^ 2 ≤ 5 ^ 2) ∧
    (normComp 3 5) ^ 2 + (normComp 4 5) ^ 2 ≤ 1 :=
  ⟨⟨by norm_num, by norm_num⟩,
   (gradient_normalization 3 4 5 (by norm_num) (by norm_num)).2.1⟩

/- ## C8: the optional Name filter -/

/-- C8: when at least one row's Name contains 'TOC1' the loader keeps
exactly the matching rows (a row is retained iff it is an input row whose
Name matches); when no row matches, or the column is absent, the table
passes through with all rows unchanged. -/
theorem nameFilterStage_spec (rows : List Row) :
    (rows.any rowMatchesTOC1 = true →
      nameFilterStage true rows = rows.filter rowMatchesTOC1 ∧
      ∀ r : Row, r ∈ nameFilterStage true rows ↔ r ∈ rows ∧ rowMatchesTOC1 r = true) ∧
    (rows.any rowMatchesTOC1 = false → nameFilterStage true rows = rows) ∧
    (∀ rs : List Row, nameFilterStage false rs = rs) := by
  refine ⟨fun h => ?_, fun h => ?_, fun rs => rfl⟩
  · have hstage : nameFilterStage true rows = rows.filter rowMatchesTOC1 := by
      unfold nameFilterStage
      rw [h]
      rfl
    exact ⟨hstage, fun r => by rw [hstage, List.mem_filter]⟩
  · unfold nameFilterStage
    rw [h]
    rfl

/-- C8 witness: the theorem applied to a mixed table holding one tagged row
and one untagged row. -/
theorem nameFilterStage_spec_witness :
    ([rowT, rowU].any rowMatchesTOC1 = true) ∧
    nameFilterStage true [rowT, rowU] = [rowT] := by
  refine ⟨by decide, ?_⟩
  have h := (nameFilterStage_spec [rowT, rowU]).1 (by decide)
  rw [h.1]
  decide

/- ## C9: no explicit insufficient-data handling -/

/-- C9: the interpolation stage is an unguarded delegation to the external
library: for every interpolator and for every sample list — including the
concrete three-sample input below, which has fewer than 4 points — the
stage returns the library's output unchanged; no sample-count check runs
and no InsufficientDataError (which the repository never defines) can be
raised, contradicting the specified explicit failure or degradation. -/
theorem interpolationStage_unguarded :
    (∀ (gd : List Sample → List (List (Option ℚ))) (ss : List Sample),
       interpolationStage gd ss = gd ss) ∧
    (∀ gd : List Sample → List (List (Option ℚ)),
       interpolationStage gd [⟨0, 0, 1⟩, ⟨1, 0, 2⟩, ⟨0, 1, 3⟩] =
         gd [⟨0, 0, 1⟩, ⟨1, 0, 2⟩, ⟨0, 1, 3⟩]) :=
  ⟨fun _ _ => rfl, fun _ => rfl⟩

/- ## C10: GeoBounds fields are the raw diagonal corners -/

/-- C10: the four GeoBounds fields are by construction the raw components
of the two transformed diagonal corners for every transform T, with no
comparison or swap applied afterwards: a transform that reverses the
latitude axis yields min_lat > max_lat, ordering holds whenever the
transform is monotone across the box diagonal, and the fields are not
minima/maxima over all four corners (a shear transform puts a smaller
latitude on an off-diagonal corner than the emitted min_lat). -/
theorem geoBounds_diagonal_construction :
    (∀ (T : ℚ → ℚ → ℚ × ℚ) (a b c d : ℚ),
       emitBounds T a b c d = ⟨(T a b).2, (T a b).1, (T c d).2, (T c d).1⟩) ∧
    (emitBounds (fun x y => (x, -y)) 0 0 1 1).max_lat <
      (emitBounds (fun x y => (x, -y)) 0 0 1 1).min_lat ∧
    (∀ (T : ℚ → ℚ → ℚ × ℚ) (a b c d : ℚ),
       (T a b).2 ≤ (T c d).2 →
       (emitBounds T a b c d).min_lat ≤ (emitBounds T a b c d).max_lat) ∧
    (emitBounds (fun x y => (y, x - y)) 0 0 1 1).min_lat = 0 ∧
    min (min ((0 : ℚ) - 0) (0 - 1)) (min (1 - 0) (1 - 1)) = -1 := by
  refine ⟨fun T a b c d => rfl, ?_, fun T a b c d h => h, ?_, ?_⟩
  · show (-1 : ℚ) < -0
    norm_num
  · show (0 : ℚ) - 0 = 0
    norm_num
  · norm_num

/-- C10 witness: the monotone-transform conjunct applied to the identity
transform on the box with corners (0,0) and (1,1). -/
theorem geoBounds_diagonal_construction_witness :
    (((fun (x y : ℚ) => (x, y)) 0 0).2 ≤ ((fun (x y : ℚ) => (x, y)) 1 1).2) ∧
    (emitBounds (fun x y => (x, y)) 0 0 1 1).min_lat ≤
      (emitBounds (fun x y => (x, y)) 0 0 1 1).max_lat :=
  ⟨by norm_num, geoBounds_diagonal_construction.2.2.1 _ 0 0 1 1 (by norm_num)⟩

end Borewell
